import Mathlib

/-!
Verification of the single-task blocking executor in `src/async_utils.rs`
(`block_on` / `run_executor` / `ThreadNotify` / `enter`).

The shallow embedding translates the Rust source into pure Lean functions.
Concurrency and OS-level parking are modelled by an explicit environment
schedule: for each "still working" round of the poll loop the schedule says
how many `request_wake` calls arrive before the owning thread reaches the
flag check, and which unpark events (real wakes or spurious OS wakes) reach
the thread once it has parked.  Thread-local storage (`ENTERED`,
`CURRENT_THREAD_NOTIFY`) is modelled as an explicit per-thread state record
threaded through the calls.
-/

namespace AsyncUtils

/-- Model of `ThreadNotify` (async_utils.rs lines 67-70): the thread handle
that owns the blocking call, and the pending-wake flag `unparked`
(an `AtomicBool` in the source). -/
structure ThreadNotify where
  threadId : Nat
  unparked : Bool
deriving DecidableEq

/-- Model of `AtomicBool::swap` on the `unparked` flag: store `b`, return the
previous value.  Both atomic operations of the source (`swap(true, Release)`
in `wake_by_ref`, `swap(false, Acquire)` in the poll loop) are instances. -/
def swapUnparked (n : ThreadNotify) (b : Bool) : ThreadNotify × Bool :=
  (⟨n.threadId, b⟩, n.unparked)

/-- Model of `ThreadNotify::wake_by_ref` (lines 72-79), the `request_wake`
operation: swap the flag to `true`; if the previous value was `false`,
unpark the owning thread.  The second component records whether
`thread.unpark()` was called. -/
def wakeByRef (n : ThreadNotify) : ThreadNotify × Bool :=
  let p := swapUnparked n true
  if !p.2 then (p.1, true) else (p.1, false)

/-- Model of the poll loop's `consume_wake`: `swap(false, Ordering::Acquire)`
on the flag (line 136), returning the previous value. -/
def consumeWake (n : ThreadNotify) : ThreadNotify × Bool :=
  swapUnparked n false

/-- Apply `k` successive `request_wake` calls (e.g. from other threads, before
the owner reaches its flag check), counting how many of them actually
unparked the thread. -/
def applyWakes : Nat → ThreadNotify → ThreadNotify × Nat
  | 0, n => (n, 0)
  | k + 1, n =>
    let p := wakeByRef n
    let q := applyWakes k p.1
    (q.1, (if p.2 then 1 else 0) + q.2)

/-- An unpark event delivered to a parked thread: a real wake
(`request_wake`, which flips the flag before unparking) or a spurious OS
wakeup (the thread resumes with the flag untouched). -/
inductive WakeEvent
  | real
  | spurious
deriving DecidableEq

/-- Model of the inner wait loop of `run_executor` (lines 136-138):
`while !thread_notify.unparked.swap(false, Acquire) { thread::park(); }`.
`events` is the sequence of unpark events the environment delivers, in
order; the result is `none` when the thread parks forever (no further
event arrives), otherwise the notifier state on resumption together with
the number of times the thread parked. -/
def waitForWake : ThreadNotify → List WakeEvent → Option (ThreadNotify × Nat)
  | n, events =>
    let c := consumeWake n
    if c.2 then some (c.1, 0)
    else
      match events with
      | [] => none
      | WakeEvent.real :: rest =>
        let w := wakeByRef c.1
        (waitForWake w.1 rest).map (fun r => (r.1, r.2 + 1))
      | WakeEvent.spurious :: rest =>
        (waitForWake c.1 rest).map (fun r => (r.1, r.2 + 1))

example : waitForWake ⟨0, true⟩ [] = some (⟨0, false⟩, 0) := by decide
example : waitForWake ⟨0, false⟩ [] = none := by decide
example : waitForWake ⟨0, false⟩ [.spurious, .real] = some (⟨0, false⟩, 2) := by
  decide
example : applyWakes 3 ⟨0, false⟩ = (⟨0, true⟩, 1) := by decide

/-- What one poll of the task eventually produces once its pending polls are
exhausted: the task either returns a final value (`Poll::Ready`) or panics
while being polled. -/
inductive TaskOutcome (T : Type)
  | ready (v : T)
  | panics (msg : Nat)
deriving DecidableEq

/-- Observable outcome of the poll loop, with instrumentation: the number of
task polls performed and (except for a permanent hang) the number of times
the thread parked. -/
inductive LoopOutcome (T : Type)
  | done (v : T) (polls : Nat) (parks : Nat)
  | hang (polls : Nat)
  | panicked (msg : Nat) (polls : Nat) (parks : Nat)
deriving DecidableEq

/-- Add one poll and `p` parks to the instrumentation of a loop outcome
(used when returning from one more iteration of the outer loop). -/
def LoopOutcome.accum {T : Type} : LoopOutcome T → Nat → LoopOutcome T
  | .done v po pa, p => .done v (po + 1) (pa + p)
  | .hang po, _ => .hang (po + 1)
  | .panicked m po pa, p => .panicked m (po + 1) (pa + p)

/-- Model of the outer loop of `run_executor` (lines 132-139) driving a task
that returns `Poll::Pending` for its first `pendings` polls and then
`outcome`.  Each pending round consumes one schedule entry
`(preWakes, events)`: `preWakes` many `request_wake` calls arrive between the
poll and the owner's flag check, then `waitForWake` runs with the unpark
events `events`.  A missing schedule entry means no wake ever arrives. -/
def runLoop {T : Type} :
    Nat → TaskOutcome T → ThreadNotify → List (Nat × List WakeEvent) →
    LoopOutcome T × ThreadNotify
  | 0, .ready v, n, _ => (.done v 1 0, n)
  | 0, .panics m, n, _ => (.panicked m 1 0, n)
  | pendings + 1, outcome, n, sched =>
    let entry := sched.headD (0, [])
    let rest := sched.tail
    let a := applyWakes entry.1 n
    match waitForWake a.1 entry.2 with
    | none => (.hang 1, a.1)
    | some (n2, p) =>
      let r := runLoop pendings outcome n2 rest
      (r.1.accum p, r.2)

/-- Thread-local state of one OS thread: the `ENTERED` cell (line 88), the
lazily-initialised `CURRENT_THREAD_NOTIFY` value (lines 81-86), and an
instrumentation counter of how many `ThreadNotify` values were ever
constructed on this thread. -/
structure ThreadState where
  tid : Nat
  entered : Bool
  notify : Option ThreadNotify
  notifyCreations : Nat
deriving DecidableEq

/-- Model of the `Enter` guard value (lines 90-92).  Note the source gives it
no `Drop` implementation. -/
structure Enter where
  mk ::
deriving DecidableEq

/-- Model of `EnterError` (lines 93-95). -/
structure EnterError where
  mk ::
deriving DecidableEq

/-- Model of `enter()` (lines 111-121): read the thread-local `ENTERED` cell;
if `true`, fail with an `EnterError` (leaving the cell untouched); otherwise
set it `true` and return the guard. -/
def enter (s : ThreadState) : Except EnterError Enter × ThreadState :=
  if s.entered then (.error ⟨⟩, s)
  else (.ok ⟨⟩, { s with entered := true })

/-- Model of `CURRENT_THREAD_NOTIFY.with` (lines 81-86, 129): return the
thread-local `ThreadNotify`, constructing it (thread handle = current
thread, flag `false`) on first access. -/
def currentThreadNotify (s : ThreadState) : ThreadNotify × ThreadState :=
  match s.notify with
  | some n => (n, s)
  | none =>
    let n : ThreadNotify := ⟨s.tid, false⟩
    (n, { s with notify := some n, notifyCreations := s.notifyCreations + 1 })

/-- Observable result of one `run_executor`/`block_on` call: a value returned
normally, the panic raised by `enter().expect(..)` on reentrancy, a task
panic propagating out uncaught, or the thread parking forever. -/
inductive ExecResult (T : Type)
  | value (v : T)
  | reentrancyPanic
  | taskPanic (msg : Nat)
  | hang
deriving DecidableEq

/-- Model of `run_executor` (lines 123-141): acquire the reentrancy guard
(panicking via `expect` if `enter` fails), fetch the thread-local notifier,
run the poll loop, and return the task's output.  The final thread state
records the notifier's flag as the loop left it; since `Enter` has no `Drop`
implementation, `ENTERED` is never reset. -/
def runExecutor {T : Type} (pendings : Nat) (outcome : TaskOutcome T)
    (sched : List (Nat × List WakeEvent)) (s : ThreadState) :
    ExecResult T × ThreadState :=
  match enter s with
  | (.error _, s1) => (.reentrancyPanic, s1)
  | (.ok _, s1) =>
    let c := currentThreadNotify s1
    let r := runLoop pendings outcome c.1 sched
    let s3 := { c.2 with notify := some r.2 }
    match r.1 with
    | .done v _ _ => (.value v, s3)
    | .hang _ => (.hang, s3)
    | .panicked m _ _ => (.taskPanic m, s3)

/-- Model of `block_on` (lines 209-212): pin the task (a no-op in the model,
where tasks are values) and delegate to `run_executor`. -/
def blockOn {T : Type} (pendings : Nat) (outcome : TaskOutcome T)
    (sched : List (Nat × List WakeEvent)) (s : ThreadState) :
    ExecResult T × ThreadState :=
  runExecutor pendings outcome sched s

example :
    blockOn 0 (.ready 42) [] ⟨7, false, none, 0⟩ =
      (.value 42, ⟨7, true, some ⟨7, false⟩, 1⟩) := by decide
example :
    blockOn 2 (.ready 5) [(0, [.real]), (3, [])] ⟨7, false, none, 0⟩ =
      (.value 5, ⟨7, true, some ⟨7, false⟩, 1⟩) := by decide
example :
    (blockOn 0 (.ready (9 : Nat)) [] ⟨7, true, none, 0⟩).1 =
      ExecResult.reentrancyPanic := by decide
example :
    (blockOn 1 (TaskOutcome.panics (T := Nat) 3) [(1, [])] ⟨7, false, none, 0⟩).1 =
      ExecResult.taskPanic 3 := by decide

/-- Shared heap state behind one `Arc<ThreadNotify>`: the strong reference
count together with the `ThreadNotify` payload. -/
structure ArcState where
  refcount : Nat
  notify : ThreadNotify
deriving DecidableEq

/-- Model of a `RawWaker`: the data pointer (identified by a numeric id) of
the `Arc` it references; the vtable is the fixed `waker_vtable` of the
source. -/
structure RawWakerM where
  dataId : Nat
deriving DecidableEq

/-- Model of `increase_refcount` (lines 34-37): clone the `Arc` without
dropping either handle, so the strong count increases by one. -/
def increase_refcount (s : ArcState) : ArcState :=
  { s with refcount := s.refcount + 1 }

/-- Model of `clone_arc_raw` (lines 39-42): bump the reference count and
return a new `RawWaker` over the same data pointer and vtable. -/
def clone_arc_raw (d : Nat) (s : ArcState) : RawWakerM × ArcState :=
  (⟨d⟩, increase_refcount s)

/-- Model of `wake_by_ref_arc_raw` (lines 49-52): call
`ThreadNotify::wake_by_ref` on the shared notifier without consuming the
handle.  The boolean records whether the thread was unparked. -/
def wake_by_ref_arc_raw (s : ArcState) : ArcState × Bool :=
  let w := wakeByRef s.notify
  ({ s with notify := w.1 }, w.2)

/-- Model of `wake_arc_raw` (lines 44-47): `ArcWake::wake` delegates to
`wake_by_ref` and then releases this handle's reference. -/
def wake_arc_raw (s : ArcState) : ArcState × Bool :=
  let w := wake_by_ref_arc_raw s
  ({ w.1 with refcount := w.1.refcount - 1 }, w.2)

/-- Model of `drop_arc_raw` (lines 54-56): release this handle's reference. -/
def drop_arc_raw (s : ArcState) : ArcState :=
  { s with refcount := s.refcount - 1 }

/-- A schedule entry makes progress: either at least one `request_wake`
arrives before the owner checks the flag, or a real wake reaches the thread
after it parks. -/
def productive (e : Nat × List WakeEvent) : Prop :=
  0 < e.1 ∨ WakeEvent.real ∈ e.2

instance (e : Nat × List WakeEvent) : Decidable (productive e) := by
  unfold productive
  infer_instance

theorem wakeByRef_eq (n : ThreadNotify) :
    wakeByRef n = (⟨n.threadId, true⟩, !n.unparked) := by
  cases n with
  | mk t u => cases u <;> rfl

theorem waitForWake_flagTrue (t : Nat) (events : List WakeEvent) :
    waitForWake ⟨t, true⟩ events = some (⟨t, false⟩, 0) := by
  rw [waitForWake.eq_def]
  simp [consumeWake, swapUnparked]

theorem waitForWake_flagFalse_nil (t : Nat) :
    waitForWake ⟨t, false⟩ [] = none := by
  rw [waitForWake.eq_def]
  simp [consumeWake, swapUnparked]

theorem waitForWake_flagFalse_real (t : Nat) (rest : List WakeEvent) :
    waitForWake ⟨t, false⟩ (WakeEvent.real :: rest) =
      (waitForWake ⟨t, true⟩ rest).map (fun r => (r.1, r.2 + 1)) := by
  rw [waitForWake.eq_def]
  simp [consumeWake, swapUnparked, wakeByRef]

theorem waitForWake_flagFalse_spurious (t : Nat) (rest : List WakeEvent) :
    waitForWake ⟨t, false⟩ (WakeEvent.spurious :: rest) =
      (waitForWake ⟨t, false⟩ rest).map (fun r => (r.1, r.2 + 1)) := by
  rw [waitForWake.eq_def]
  simp [consumeWake, swapUnparked]

theorem waitForWake_some (n : ThreadNotify) (events : List WakeEvent)
    (r : ThreadNotify × Nat) (h : waitForWake n events = some r) :
    r.1 = ⟨n.threadId, false⟩ := by
  induction events generalizing n r with
  | nil =>
    cases n with
    | mk t u =>
      cases u
      · rw [waitForWake_flagFalse_nil] at h
        exact absurd h (by simp)
      · rw [waitForWake_flagTrue] at h
        simp at h
        simp [← h]
  | cons e rest ih =>
    cases n with
    | mk t u =>
      cases u
      · cases e
        · rw [waitForWake_flagFalse_real] at h
          rcases Option.map_eq_some'.mp h with ⟨r2, hr2, hmap⟩
          have := ih ⟨t, true⟩ r2 hr2
          simp [← hmap, this]
        · rw [waitForWake_flagFalse_spurious] at h
          rcases Option.map_eq_some'.mp h with ⟨r2, hr2, hmap⟩
          have := ih ⟨t, false⟩ r2 hr2
          simp [← hmap, this]
      · rw [waitForWake_flagTrue] at h
        simp at h
        simp [← h]

theorem waitForWake_progress (n : ThreadNotify) (events : List WakeEvent)
    (h : n.unparked = true ∨ WakeEvent.real ∈ events) :
    ∃ p, waitForWake n events = some (⟨n.threadId, false⟩, p) := by
  induction events generalizing n with
  | nil =>
    cases n with
    | mk t u =>
      rcases h with h | h
      · simp only at h
        subst h
        exact ⟨0, waitForWake_flagTrue t []⟩
      · exact absurd h (by simp)
  | cons e rest ih =>
    cases n with
    | mk t u =>
      cases u
      · cases e
        · rcases ih ⟨t, true⟩ (Or.inl rfl) with ⟨p, hp⟩
          refine ⟨p + 1, ?_⟩
          rw [waitForWake_flagFalse_real, hp]
          rfl
        · have hmem : WakeEvent.real ∈ rest := by
            rcases h with h | h
            · exact absurd h (by simp)
            · simpa using h
          rcases ih ⟨t, false⟩ (Or.inr hmem) with ⟨p, hp⟩
          refine ⟨p + 1, ?_⟩
          rw [waitForWake_flagFalse_spurious, hp]
          rfl
      · exact ⟨0, waitForWake_flagTrue t (e :: rest)⟩

theorem applyWakes_flagTrue (k : Nat) (t : Nat) :
    applyWakes k ⟨t, true⟩ = (⟨t, true⟩, 0) := by
  induction k with
  | zero => rfl
  | succ k ih => simp [applyWakes, wakeByRef_eq, ih]

theorem applyWakes_pos (k : Nat) (n : ThreadNotify) (hk : 0 < k)
    (hn : n.unparked = false) :
    applyWakes k n = (⟨n.threadId, true⟩, 1) := by
  cases k with
  | zero => exact absurd hk (by simp)
  | succ k =>
    simp [applyWakes, wakeByRef_eq, hn, applyWakes_flagTrue]

theorem applyWakes_unparks_le_one (k : Nat) (n : ThreadNotify) :
    (applyWakes k n).2 ≤ 1 := by
  cases k with
  | zero => simp [applyWakes]
  | succ k =>
    cases n with
    | mk t u =>
      cases u
      · rw [applyWakes_pos (k + 1) ⟨t, false⟩ (by omega) rfl]
      · simp [applyWakes, wakeByRef_eq, applyWakes_flagTrue]

/-- The loop outcome a task with the given final behaviour produces after
`po` polls and `pa` parks. -/
def TaskOutcome.finish {T : Type} : TaskOutcome T → Nat → Nat → LoopOutcome T
  | .ready v, po, pa => .done v po pa
  | .panics m, po, pa => .panicked m po pa

theorem TaskOutcome.finish_accum {T : Type} (outcome : TaskOutcome T)
    (po pa p : Nat) :
    (outcome.finish po pa).accum p = outcome.finish (po + 1) (pa + p) := by
  cases outcome <;> rfl

theorem runLoop_zero {T : Type} (outcome : TaskOutcome T) (n : ThreadNotify)
    (sched : List (Nat × List WakeEvent)) :
    runLoop 0 outcome n sched = (outcome.finish 1 0, n) := by
  cases outcome <;> rfl

theorem runLoop_succ {T : Type} (pendings : Nat) (outcome : TaskOutcome T)
    (n : ThreadNotify) (sched : List (Nat × List WakeEvent)) :
    runLoop (pendings + 1) outcome n sched =
      (let entry := sched.headD (0, [])
       let a := applyWakes entry.1 n
       match waitForWake a.1 entry.2 with
       | none => (LoopOutcome.hang 1, a.1)
       | some (n2, p) =>
         let r := runLoop pendings outcome n2 sched.tail
         (r.1.accum p, r.2)) := by
  cases outcome <;> rfl

theorem runLoop_productive {T : Type} (outcome : TaskOutcome T) (pendings : Nat) :
    ∀ (n : ThreadNotify) (sched : List (Nat × List WakeEvent)),
    n.unparked = false → pendings ≤ sched.length →
    (∀ e ∈ sched.take pendings, productive e) →
    ∃ parks, runLoop pendings outcome n sched =
      (outcome.finish (pendings + 1) parks, ⟨n.threadId, false⟩) := by
  induction pendings with
  | zero =>
    intro n sched hn _ _
    refine ⟨0, ?_⟩
    rw [runLoop_zero]
    cases n with
    | mk t u =>
      simp only at hn
      subst hn
      rfl
  | succ pendings ih =>
    intro n sched hn hlen hprod
    cases n with
    | mk t u =>
      simp only at hn
      subst hn
      cases sched with
      | nil => simp at hlen
      | cons e rest =>
        have hp : productive e := hprod e (by simp)
        have hw : ∃ p, waitForWake (applyWakes e.1 ⟨t, false⟩).1 e.2 =
            some (⟨t, false⟩, p) := by
          rcases Nat.eq_zero_or_pos e.1 with h0 | h0
          · rw [h0]
            have hmem : WakeEvent.real ∈ e.2 := by
              rcases hp with hp | hp
              · omega
              · exact hp
            exact waitForWake_progress ⟨t, false⟩ e.2 (Or.inr hmem)
          · rw [applyWakes_pos e.1 ⟨t, false⟩ h0 rfl]
            exact ⟨0, waitForWake_flagTrue t e.2⟩
        rcases hw with ⟨p, hw⟩
        have hrest : ∃ parks, runLoop pendings outcome ⟨t, false⟩ rest =
            (outcome.finish (pendings + 1) parks, ⟨t, false⟩) := by
          refine ih ⟨t, false⟩ rest rfl (by simpa using hlen) ?_
          intro e2 he2
          exact hprod e2 (by simp [he2])
        rcases hrest with ⟨parks, hrest⟩
        refine ⟨parks + p, ?_⟩
        rw [runLoop_succ]
        simp only [List.headD_cons, List.tail_cons, hw, hrest,
          TaskOutcome.finish_accum]

theorem runLoop_done_value {T : Type} (v : T) (pendings : Nat) :
    ∀ (n : ThreadNotify) (sched : List (Nat × List WakeEvent)) (w : T)
      (po pa : Nat),
    (runLoop pendings (TaskOutcome.ready v) n sched).1 = LoopOutcome.done w po pa →
    w = v := by
  induction pendings with
  | zero =>
    intro n sched w po pa h
    rw [runLoop_zero] at h
    simp [TaskOutcome.finish] at h
    exact h.1.symm
  | succ pendings ih =>
    intro n sched w po pa h
    rw [runLoop_succ] at h
    simp only [] at h
    cases hw : waitForWake (applyWakes (sched.headD (0, [])).1 n).1
        (sched.headD (0, [])).2 with
    | none => rw [hw] at h; exact absurd h (by simp)
    | some r =>
      rcases r with ⟨n2, p⟩
      rw [hw] at h
      simp only [] at h
      cases hr : (runLoop pendings (TaskOutcome.ready v) n2 sched.tail).1 with
      | done v2 po2 pa2 =>
        rw [hr] at h
        simp [LoopOutcome.accum] at h
        rw [← h.1]
        exact ih n2 sched.tail v2 po2 pa2 hr
      | hang po2 => rw [hr] at h; exact absurd h (by simp [LoopOutcome.accum])
      | panicked m2 po2 pa2 =>
        rw [hr] at h
        exact absurd h (by simp [LoopOutcome.accum])

theorem runLoop_ready_not_panicked {T : Type} (v : T) (pendings : Nat) :
    ∀ (n : ThreadNotify) (sched : List (Nat × List WakeEvent)) (m po pa : Nat),
    (runLoop pendings (TaskOutcome.ready v) n sched).1 ≠
      LoopOutcome.panicked m po pa := by
  induction pendings with
  | zero =>
    intro n sched m po pa h
    rw [runLoop_zero] at h
    exact absurd h (by simp [TaskOutcome.finish])
  | succ pendings ih =>
    intro n sched m po pa h
    rw [runLoop_succ] at h
    simp only [] at h
    cases hw : waitForWake (applyWakes (sched.headD (0, [])).1 n).1
        (sched.headD (0, [])).2 with
    | none => rw [hw] at h; exact absurd h (by simp)
    | some r =>
      rcases r with ⟨n2, p⟩
      rw [hw] at h
      simp only [] at h
      cases hr : (runLoop pendings (TaskOutcome.ready v) n2 sched.tail).1 with
      | done v2 po2 pa2 =>
        rw [hr] at h
        exact absurd h (by simp [LoopOutcome.accum])
      | hang po2 => rw [hr] at h; exact absurd h (by simp [LoopOutcome.accum])
      | panicked m2 po2 pa2 =>
        exact ih n2 sched.tail m2 po2 pa2 hr

theorem runExecutor_entered {T : Type} (pendings : Nat) (outcome : TaskOutcome T)
    (sched : List (Nat × List WakeEvent)) (s : ThreadState)
    (h : s.entered = true) :
    runExecutor pendings outcome sched s = (ExecResult.reentrancyPanic, s) := by
  unfold runExecutor
  simp [enter, h]

theorem runExecutor_leaves_entered {T : Type} (pendings : Nat)
    (outcome : TaskOutcome T) (sched : List (Nat × List WakeEvent))
    (s : ThreadState) (h : s.entered = false) :
    (runExecutor pendings outcome sched s).2.entered = true := by
  unfold runExecutor
  simp only [enter, h, Bool.false_eq_true, if_false]
  cases hsn : s.notify with
  | none => simp only [currentThreadNotify, hsn]; split <;> rfl
  | some n0 => simp only [currentThreadNotify, hsn]; split <;> rfl

/-- C1: in the wait phase of the poll loop, the thread parks only when
`consume_wake` returned `false`; after every unpark (real or spurious) the
flag is swapped-and-checked again; and a `request_wake` that set the flag
before the owner reaches the check is consumed immediately, with zero
parks — it is never lost. -/
theorem executor_C1 (n : ThreadNotify) (events : List WakeEvent) :
    (n.unparked = true → waitForWake n events = some (⟨n.threadId, false⟩, 0)) ∧
    (∀ n2 p, waitForWake n events = some (n2, p) → 0 < p →
      n.unparked = false) ∧
    (∀ t rest, waitForWake ⟨t, false⟩ (WakeEvent.spurious :: rest) =
      (waitForWake ⟨t, false⟩ rest).map (fun r => (r.1, r.2 + 1))) := by
  refine ⟨?_, ?_, waitForWake_flagFalse_spurious⟩
  · intro h
    cases n with
    | mk t u =>
      simp only at h
      subst h
      exact waitForWake_flagTrue t events
  · intro n2 p h hp
    cases n with
    | mk t u =>
      cases u
      · rfl
      · rw [waitForWake_flagTrue] at h
        simp only [Option.some.injEq, Prod.mk.injEq] at h
        rcases h with ⟨h1, h2⟩
        omega

theorem executor_C1_witness :
    waitForWake ⟨0, true⟩ [WakeEvent.spurious] = some (⟨0, false⟩, 0) :=
  (executor_C1 ⟨0, true⟩ [WakeEvent.spurious]).1 rfl

/-- C2 (counterexample to the claim, exposing a bug in the code): the `Enter`
guard has no `Drop` implementation, so the `ENTERED` flag is NOT reset on
exit from the poll loop.  Here a single `block_on` of an immediately-ready
task on a fresh thread returns its value normally, yet afterwards the
thread-local reentrancy flag is still `true`, contradicting the claim that
the flag is `true` exactly while a blocking call is in progress and is reset
on every exit path. -/
theorem executor_C2_bug :
    (blockOn 0 (TaskOutcome.ready 42) [] ⟨7, false, none, 0⟩).1 =
      ExecResult.value 42 ∧
    (blockOn 0 (TaskOutcome.ready 42) [] ⟨7, false, none, 0⟩).2.entered =
      true := by
  decide

/-- C3: once any `block_on`/`run_executor` call has started on a thread
(whatever its result), the `ENTERED` flag remains `true` in the resulting
thread state, and every subsequent call on that thread panics via the
`expect` on `enter()` instead of running its task. -/
theorem executor_C3 {T : Type} (pendings pendings2 : Nat)
    (outcome outcome2 : TaskOutcome T)
    (sched sched2 : List (Nat × List WakeEvent)) (s : ThreadState)
    (h : s.entered = false) :
    (blockOn pendings outcome sched s).2.entered = true ∧
    (blockOn pendings2 outcome2 sched2 (blockOn pendings outcome sched s).2).1 =
      ExecResult.reentrancyPanic := by
  have h1 : (blockOn pendings outcome sched s).2.entered = true :=
    runExecutor_leaves_entered pendings outcome sched s h
  refine ⟨h1, ?_⟩
  rw [blockOn, runExecutor_entered pendings2 outcome2 sched2 _ h1]

theorem executor_C3_witness :
    (blockOn 0 (TaskOutcome.ready 1) [] ⟨7, false, none, 0⟩).2.entered = true ∧
    (blockOn 0 (TaskOutcome.ready 2) []
      (blockOn 0 (TaskOutcome.ready 1) [] ⟨7, false, none, 0⟩).2).1 =
      ExecResult.reentrancyPanic :=
  executor_C3 0 0 (TaskOutcome.ready 1) (TaskOutcome.ready 2) [] []
    ⟨7, false, none, 0⟩ rfl

/-- C4: on every reachable thread state (one where the thread-local notifier
has not been created unless a blocking call already ran, i.e.
`s.notify = none ∨ s.entered = true`), an invocation of the entry point that
proceeds past the guard constructs exactly one fresh `ThreadNotify`, bound
to the current thread identity and with a clean pending flag; an invocation
rejected by the guard touches the notifier state not at all; and the
reachability invariant is preserved, so no notifier state can leak from one
blocking call into a later one. -/
theorem executor_C4 {T : Type} (pendings : Nat) (outcome : TaskOutcome T)
    (sched : List (Nat × List WakeEvent)) (s : ThreadState)
    (hinv : s.notify = none ∨ s.entered = true) :
    (s.entered = false →
      (runExecutor pendings outcome sched s).2.notifyCreations =
        s.notifyCreations + 1 ∧
      (currentThreadNotify { s with entered := true }).1 = ⟨s.tid, false⟩) ∧
    (s.entered = true →
      runExecutor pendings outcome sched s = (ExecResult.reentrancyPanic, s)) ∧
    ((runExecutor pendings outcome sched s).2.notify = none ∨
      (runExecutor pendings outcome sched s).2.entered = true) := by
  cases hE : s.entered with
  | true =>
    refine ⟨by simp [hE], fun _ => runExecutor_entered pendings outcome sched s hE, ?_⟩
    rw [runExecutor_entered pendings outcome sched s hE]
    exact Or.inr hE
  | false =>
    have hn : s.notify = none := by
      rcases hinv with hn | hc
      · exact hn
      · rw [hE] at hc; exact absurd hc (by simp)
    refine ⟨fun _ => ⟨?_, ?_⟩, fun hc => by simp [hE] at hc, ?_⟩
    · unfold runExecutor
      simp only [enter, hE, Bool.false_eq_true, if_false]
      simp only [currentThreadNotify, hn]
      split <;> rfl
    · simp [currentThreadNotify, hn]
    · exact Or.inr (runExecutor_leaves_entered pendings outcome sched s hE)

theorem executor_C4_witness :
    (runExecutor 1 (TaskOutcome.ready 5) [(1, [])]
      ⟨3, false, none, 0⟩).2.notifyCreations = 0 + 1 :=
  ((executor_C4 1 (TaskOutcome.ready 5) [(1, [])] ⟨3, false, none, 0⟩
    (Or.inl rfl)).1 rfl).1

/-- C5: `request_wake` (`ThreadNotify::wake_by_ref`) always leaves the
pending flag `true` and the thread handle untouched, unparks the owning
thread exactly when the previous flag value was `false`, a second wake
before consumption never unparks again, and any burst of `k ≥ 1` wakes from
an unset flag performs exactly one unpark (wakes coalesce). -/
theorem executor_C5 (n : ThreadNotify) (k : Nat) :
    (wakeByRef n).1.unparked = true ∧
    (wakeByRef n).1.threadId = n.threadId ∧
    ((wakeByRef n).2 = true ↔ n.unparked = false) ∧
    (wakeByRef (wakeByRef n).1).2 = false ∧
    (applyWakes k n).2 ≤ 1 ∧
    (n.unparked = false → 0 < k → (applyWakes k n).2 = 1) := by
  refine ⟨by simp [wakeByRef_eq], by simp [wakeByRef_eq], ?_, ?_,
    applyWakes_unparks_le_one k n, ?_⟩
  · rw [wakeByRef_eq]
    cases hm : n.unparked <;> simp
  · simp [wakeByRef_eq]
  · intro hn hk
    rw [applyWakes_pos k n hk hn]

theorem executor_C5_witness :
    (applyWakes 3 ⟨0, false⟩).2 = 1 :=
  (executor_C5 ⟨0, false⟩ 3).2.2.2.2.2 rfl (by omega)

/-- C6: `enter()` fails with an `EnterError` and does not modify the
thread-local flag when it is already `true`; otherwise it sets the flag and
returns the guard; consequently a recursive invocation of the entry point on
a thread already inside one panics via the `expect` (surfacing the
reentrancy error) instead of running the task or hanging. -/
theorem executor_C6 {T : Type} (pendings : Nat) (outcome : TaskOutcome T)
    (sched : List (Nat × List WakeEvent)) (s : ThreadState) :
    (s.entered = true → enter s = (Except.error ⟨⟩, s)) ∧
    (s.entered = false →
      enter s = (Except.ok ⟨⟩, { s with entered := true })) ∧
    (s.entered = true →
      runExecutor pendings outcome sched s = (ExecResult.reentrancyPanic, s)) := by
  refine ⟨fun h => by simp [enter, h], fun h => by simp [enter, h],
    fun h => runExecutor_entered pendings outcome sched s h⟩

theorem executor_C6_witness :
    enter ⟨0, true, none, 0⟩ = (Except.error ⟨⟩, ⟨0, true, none, 0⟩) :=
  (executor_C6 0 (TaskOutcome.ready 0) [] ⟨0, true, none, 0⟩).1 rfl

theorem runExecutor_result {T : Type} (pendings : Nat) (outcome : TaskOutcome T)
    (sched : List (Nat × List WakeEvent)) (s : ThreadState)
    (h : s.entered = false) :
    (runExecutor pendings outcome sched s).1 =
      (match (runLoop pendings outcome
          (currentThreadNotify { s with entered := true }).1 sched).1 with
        | LoopOutcome.done v _ _ => ExecResult.value v
        | LoopOutcome.hang _ => ExecResult.hang
        | LoopOutcome.panicked m _ _ => ExecResult.taskPanic m) := by
  unfold runExecutor
  simp only [enter, h, Bool.false_eq_true, if_false]
  split <;> rfl

/-- C7: the value returned by `block_on` is always exactly the task's final
value; a task that polls once as `Pending = 0` (immediately ready) completes
with one poll and zero parks, so the thread never parks; and on a thread not
already inside a blocking call, `block_on` of an immediately-ready task
returns its value. -/
theorem executor_C7 {T : Type} (pendings : Nat) (v w : T)
    (sched : List (Nat × List WakeEvent)) (s : ThreadState) (n : ThreadNotify) :
    ((blockOn pendings (TaskOutcome.ready v) sched s).1 = ExecResult.value w →
      w = v) ∧
    (runLoop 0 (TaskOutcome.ready v) n sched = (LoopOutcome.done v 1 0, n)) ∧
    (s.entered = false →
      (blockOn 0 (TaskOutcome.ready v) sched s).1 = ExecResult.value v) := by
  refine ⟨?_, runLoop_zero (TaskOutcome.ready v) n sched, ?_⟩
  · intro h
    cases hE : s.entered with
    | true =>
      rw [blockOn,
        runExecutor_entered pendings (TaskOutcome.ready v) sched s hE] at h
      exact absurd h (by simp)
    | false =>
      rw [blockOn,
        runExecutor_result pendings (TaskOutcome.ready v) sched s hE] at h
      cases hr : (runLoop pendings (TaskOutcome.ready v)
          (currentThreadNotify { s with entered := true }).1 sched).1 with
      | done v2 po pa =>
        rw [hr] at h
        simp only [ExecResult.value.injEq] at h
        rw [← h]
        exact runLoop_done_value v pendings
          (currentThreadNotify { s with entered := true }).1 sched v2 po pa hr
      | hang po => rw [hr] at h; exact absurd h (by simp)
      | panicked m po pa => rw [hr] at h; exact absurd h (by simp)
  · intro hE
    rw [blockOn, runExecutor_result 0 (TaskOutcome.ready v) sched s hE,
      runLoop_zero]
    rfl

theorem executor_C7_witness :
    (blockOn 0 (TaskOutcome.ready 9) [] ⟨2, false, none, 0⟩).1 =
      ExecResult.value 9 :=
  (executor_C7 0 9 9 [] ⟨2, false, none, 0⟩ ⟨0, false⟩).2.2 rfl

/-- C8: for a task that reports "still working" `pendings` times, any two
environment schedules in which each round eventually delivers a wake —
whether through 0, 1 or many `request_wake` calls arriving before the park,
or a real wake after it — produce the same observable outcome: the final
value, with the number of polls exactly `pendings + 1` (one re-poll per
transition, no busy-spinning, no missed re-polls). -/
theorem executor_C8 {T : Type} (v : T) (pendings : Nat) (n : ThreadNotify)
    (sched1 sched2 : List (Nat × List WakeEvent)) (hn : n.unparked = false)
    (h1len : pendings ≤ sched1.length) (h2len : pendings ≤ sched2.length)
    (h1 : ∀ e ∈ sched1.take pendings, productive e)
    (h2 : ∀ e ∈ sched2.take pendings, productive e) :
    ∃ parks1 parks2,
      runLoop pendings (TaskOutcome.ready v) n sched1 =
        (LoopOutcome.done v (pendings + 1) parks1, ⟨n.threadId, false⟩) ∧
      runLoop pendings (TaskOutcome.ready v) n sched2 =
        (LoopOutcome.done v (pendings + 1) parks2, ⟨n.threadId, false⟩) := by
  rcases runLoop_productive (TaskOutcome.ready v) pendings n sched1 hn h1len h1
    with ⟨p1, hp1⟩
  rcases runLoop_productive (TaskOutcome.ready v) pendings n sched2 hn h2len h2
    with ⟨p2, hp2⟩
  exact ⟨p1, p2, hp1, hp2⟩

theorem executor_C8_witness :
    ∃ parks1 parks2,
      runLoop 2 (TaskOutcome.ready 5) ⟨0, false⟩
          [(0, [WakeEvent.real]), (0, [WakeEvent.spurious, WakeEvent.real])] =
        (LoopOutcome.done 5 3 parks1, ⟨0, false⟩) ∧
      runLoop 2 (TaskOutcome.ready 5) ⟨0, false⟩ [(3, []), (1, [])] =
        (LoopOutcome.done 5 3 parks2, ⟨0, false⟩) :=
  executor_C8 5 2 ⟨0, false⟩
    [(0, [WakeEvent.real]), (0, [WakeEvent.spurious, WakeEvent.real])]
    [(3, []), (1, [])] rfl (by decide) (by decide) (by decide) (by decide)

/-- C9: a panic raised by the task while polled propagates out of `block_on`
unmodified (same payload) — there is no catch anywhere in the entry point or
poll loop — and a task that never panics can never make `block_on` surface a
task panic: the loop itself produces no error outcome. -/
theorem executor_C9 {T : Type} (pendings m : Nat) (v : T)
    (sched : List (Nat × List WakeEvent)) (s : ThreadState)
    (h : s.entered = false) (hn : s.notify = none)
    (hlen : pendings ≤ sched.length)
    (hprod : ∀ e ∈ sched.take pendings, productive e) :
    (blockOn pendings (TaskOutcome.panics (T := T) m) sched s).1 =
      ExecResult.taskPanic m ∧
    (∀ m2 : Nat, (blockOn pendings (TaskOutcome.ready v) sched s).1 ≠
      ExecResult.taskPanic m2) := by
  have hcn : (currentThreadNotify { s with entered := true }).1 =
      (⟨s.tid, false⟩ : ThreadNotify) := by
    simp [currentThreadNotify, hn]
  constructor
  · rw [blockOn,
      runExecutor_result pendings (TaskOutcome.panics (T := T) m) sched s h,
      hcn]
    rcases runLoop_productive (TaskOutcome.panics (T := T) m) pendings
      ⟨s.tid, false⟩ sched rfl hlen hprod with ⟨p, hp⟩
    rw [hp]
    rfl
  · intro m2 hcontra
    rw [blockOn, runExecutor_result pendings (TaskOutcome.ready v) sched s h,
      hcn] at hcontra
    cases hr : (runLoop pendings (TaskOutcome.ready v) ⟨s.tid, false⟩ sched).1 with
    | done v2 po pa => rw [hr] at hcontra; exact absurd hcontra (by simp)
    | hang po => rw [hr] at hcontra; exact absurd hcontra (by simp)
    | panicked m3 po pa =>
      exact runLoop_ready_not_panicked v pendings ⟨s.tid, false⟩ sched m3 po pa hr

theorem executor_C9_witness :
    (blockOn 1 (TaskOutcome.panics (T := Nat) 7) [(1, [])]
      ⟨4, false, none, 0⟩).1 = ExecResult.taskPanic 7 :=
  (executor_C9 1 7 (0 : Nat) [(1, [])] ⟨4, false, none, 0⟩ rfl rfl (by decide)
    (by decide)).1

/-- C10: `clone_arc_raw` increments the referenced notifier's strong count by
exactly one, returns a new `RawWaker` aliasing the same data pointer, and
leaves every part of the `ThreadNotify` — thread handle and pending flag —
unchanged; by contrast `wake_by_ref` does mutate the pending flag. -/
theorem executor_C10 (d : Nat) (s : ArcState) :
    (clone_arc_raw d s).2.refcount = s.refcount + 1 ∧
    (clone_arc_raw d s).1.dataId = d ∧
    (clone_arc_raw d s).2.notify = s.notify ∧
    (clone_arc_raw d s).2.notify.threadId = s.notify.threadId ∧
    (clone_arc_raw d s).2.notify.unparked = s.notify.unparked ∧
    (wake_by_ref_arc_raw s).1.notify.unparked = true := by
  refine ⟨rfl, rfl, rfl, rfl, rfl, ?_⟩
  simp [wake_by_ref_arc_raw, wakeByRef_eq]

end AsyncUtils
